import Mathlib

/-
  Verification development for the warp-trading-bot repository.

  Shallow embedding of the decision and control logic of the bot:
  the filter pipeline (src/filters/pool-filters.ts), the buy and sell
  workflows of the trade execution engine, and the exit-condition
  evaluation of the position tracker (src/bot.ts).

  External capabilities (chain connection, settlement executor, metadata
  provider, market data, clock) are modelled as explicit environment
  records supplying the value each call site observes; a call that can
  raise is modelled with an Option or Except result, where none or error
  denotes the raising outcome.  Mutable fields of the Bot object are
  threaded as an explicit state record; externally visible actions
  (mutex operations, transaction submissions, notification messages)
  are collected in an event list.
-/

namespace Warp

/-- FilterResult from src/filters/pool-filters.ts: ok flag plus optional message. -/
structure FilterResult where
  ok : Bool
  message : Option String := none
deriving DecidableEq, Repr

/-- MinimalTokenMetadata from src/filters/pool-filters.ts. -/
structure MinimalTokenMetadata where
  name : String
  symbol : String
  uri : String
  isMutable : Option Bool := none
deriving DecidableEq, Repr

/-- The part of ExtendedLiquidityPoolKeys the pipeline-level logic inspects. -/
structure PoolKeys where
  baseMint : String
  poolOpenTime : Nat := 0
deriving DecidableEq, Repr

/-- The Filter interface of src/filters/pool-filters.ts: a named member filter
with a requiresMetadata capability flag and an execute function that may raise
(modelled as Except, error being a thrown exception). -/
structure Filter where
  name : String
  requiresMetadata : Bool
  run : PoolKeys → Option MinimalTokenMetadata → Except String FilterResult

/-- Outcome of one call to PoolFilters.execute: the returned FilterResult, the
names of the member filters that were actually executed (in order), and how
many times fetchMetadata was invoked during the call. -/
structure ExecOutcome where
  result : FilterResult
  evaluated : List String
  fetchCount : Nat
deriving DecidableEq, Repr

/-- The member-filter loop of PoolFilters.execute (src/filters/pool-filters.ts,
lines 157-171): run each filter in order with the shared metadata; return the
first result with ok = false; a filter that throws yields ok = false with the
message naming the filter; if all pass return ok = true.  Also returns the
names of the filters executed. -/
def runFilters (p : PoolKeys) (meta : Option MinimalTokenMetadata) :
    List Filter → FilterResult × List String
  | [] => ({ ok := true }, [])
  | f :: rest =>
    match f.run p meta with
    | .error _ => ({ ok := false, message := some ("Error in " ++ f.name) }, [f.name])
    | .ok r =>
      if r.ok then
        let tail := runFilters p meta rest
        (tail.1, f.name :: tail.2)
      else
        (r, [f.name])

/-- The metadata-resolution prelude of PoolFilters.execute (lines 140-153):
use the caller-supplied snapshot if present; otherwise fetch one snapshot
when some configured filter requires metadata.  Returns the snapshot the
member filters receive and the number of fetchMetadata calls made. -/
def internalMetadata (filters : List Filter)
    (metadata fetched : Option MinimalTokenMetadata) :
    Option MinimalTokenMetadata × Nat :=
  match metadata with
  | some m => (some m, 0)
  | none =>
    if filters.any (·.requiresMetadata) then (fetched, 1) else (none, 0)

/-- PoolFilters.execute (src/filters/pool-filters.ts, lines 140-172).
The fetched argument is the environment's answer to the single possible
fetchMetadata call (none models a fetch that failed or found no account;
fetchMetadata catches its own errors and returns undefined). -/
def PoolFilters.execute (filters : List Filter) (p : PoolKeys)
    (metadata fetched : Option MinimalTokenMetadata) : ExecOutcome :=
  let im := internalMetadata filters metadata fetched
  let looped := runFilters p im.1 filters
  { result := looped.1, evaluated := looped.2, fetchCount := im.2 }

lemma runFilters_nil (p : PoolKeys) (meta : Option MinimalTokenMetadata) :
    runFilters p meta [] = ({ ok := true }, []) := rfl

lemma runFilters_append_pass (p : PoolKeys) (meta : Option MinimalTokenMetadata)
    (pre rest : List Filter)
    (hpre : ∀ g ∈ pre, ∃ r, g.run p meta = .ok r ∧ r.ok = true) :
    runFilters p meta (pre ++ rest) =
      ((runFilters p meta rest).1, pre.map (·.name) ++ (runFilters p meta rest).2) := by
  induction pre with
  | nil => simp
  | cons g pre ih =>
    obtain ⟨r, hrun, hok⟩ := hpre g (by simp)
    have ih2 := ih (fun g hg => hpre g (by simp [hg]))
    simp only [List.cons_append, runFilters, hrun, hok, if_true, List.map_cons,
      List.append_eq, ih2]

lemma runFilters_all_pass (p : PoolKeys) (meta : Option MinimalTokenMetadata)
    (fs : List Filter)
    (h : ∀ g ∈ fs, ∃ r, g.run p meta = .ok r ∧ r.ok = true) :
    runFilters p meta fs = ({ ok := true }, fs.map (·.name)) := by
  have := runFilters_append_pass p meta fs [] h
  simpa [runFilters_nil] using this

/-- C1: PoolFilters.execute evaluates the configured filters in order and
returns the result of the first filter whose result has ok = false, executing
no later filter; a filter that throws is treated as failing there, with a
message naming that filter; if every filter passes, or none are configured,
the returned result is ok = true. -/
theorem C1_pipeline_first_failure_short_circuit
    (pre post : List Filter) (f : Filter) (p : PoolKeys)
    (md fetched im : Option MinimalTokenMetadata)
    (him : im = (internalMetadata (pre ++ f :: post) md fetched).1) :
    ((∀ g ∈ pre, ∃ r, g.run p im = .ok r ∧ r.ok = true) →
      (∀ r, f.run p im = .ok r → r.ok = false →
        PoolFilters.execute (pre ++ f :: post) p md fetched =
          { result := r, evaluated := pre.map (·.name) ++ [f.name],
            fetchCount := (internalMetadata (pre ++ f :: post) md fetched).2 }) ∧
      (∀ e, f.run p im = .error e →
        PoolFilters.execute (pre ++ f :: post) p md fetched =
          { result := { ok := false, message := some ("Error in " ++ f.name) },
            evaluated := pre.map (·.name) ++ [f.name],
            fetchCount := (internalMetadata (pre ++ f :: post) md fetched).2 })) ∧
    ((∀ g ∈ pre ++ f :: post, ∃ r, g.run p im = .ok r ∧ r.ok = true) →
      (PoolFilters.execute (pre ++ f :: post) p md fetched).result = { ok := true } ∧
      (PoolFilters.execute (pre ++ f :: post) p md fetched).evaluated =
        (pre ++ f :: post).map (·.name)) ∧
    (PoolFilters.execute [] p md fetched).result = { ok := true } := by
  subst him
  refine ⟨fun hpre => ⟨fun r hrun hok => ?_, fun e hrun => ?_⟩, fun hall => ?_, ?_⟩
  · have h := runFilters_append_pass p (internalMetadata (pre ++ f :: post) md fetched).1
      pre (f :: post) hpre
    simp [PoolFilters.execute, h, runFilters, hrun, hok]
  · have h := runFilters_append_pass p (internalMetadata (pre ++ f :: post) md fetched).1
      pre (f :: post) hpre
    simp [PoolFilters.execute, h, runFilters, hrun]
  · have h := runFilters_all_pass p (internalMetadata (pre ++ f :: post) md fetched).1
      (pre ++ f :: post) hall
    simp [PoolFilters.execute, h]
  · simp [PoolFilters.execute, runFilters]

/-- C2: within one call to PoolFilters.execute the metadata snapshot is
fetched at most once; zero times when the caller passes a snapshot in or when
no configured filter requires metadata; and a failed fetch is not fatal: the
member filters are still evaluated, receiving an absent snapshot. -/
theorem C2_metadata_fetched_at_most_once
    (fs : List Filter) (p : PoolKeys) (md fetched : Option MinimalTokenMetadata) :
    (PoolFilters.execute fs p md fetched).fetchCount ≤ 1 ∧
    (md.isSome → (PoolFilters.execute fs p md fetched).fetchCount = 0) ∧
    ((∀ f ∈ fs, f.requiresMetadata = false) →
      (PoolFilters.execute fs p md fetched).fetchCount = 0) ∧
    (md = none → fetched = none →
      (PoolFilters.execute fs p md fetched).result = (runFilters p none fs).1 ∧
      (PoolFilters.execute fs p md fetched).evaluated = (runFilters p none fs).2) := by
  refine ⟨?_, fun hmd => ?_, fun hreq => ?_, fun hmd hfetch => ?_⟩
  · cases md with
    | some m => simp [PoolFilters.execute, internalMetadata]
    | none =>
      by_cases h : fs.any (·.requiresMetadata) <;>
        simp [PoolFilters.execute, internalMetadata, h]
  · cases md with
    | some m => simp [PoolFilters.execute, internalMetadata]
    | none => simp at hmd
  · cases md with
    | some m => simp [PoolFilters.execute, internalMetadata]
    | none =>
      have h : fs.any (·.requiresMetadata) = false := by
        simp only [List.any_eq_false]
        intro f hf
        simpa using hreq f hf
      simp [PoolFilters.execute, internalMetadata, h]
  · subst hmd; subst hfetch
    by_cases h : fs.any (·.requiresMetadata) <;>
      simp [PoolFilters.execute, internalMetadata, h]

/-- A member filter that always passes (shape of a passing eligibility check). -/
def passFilter : Filter :=
  { name := "PassFilter", requiresMetadata := false,
    run := fun _ _ => .ok { ok := true } }

/-- A member filter that fails its predicate, in the shape of the pool-size
bounds check failing with a diagnostic message. -/
def sizeFailFilter : Filter :=
  { name := "PoolSizeFilter", requiresMetadata := false,
    run := fun _ _ => .ok { ok := false, message := some "Pool size 3 below min 5" } }

/-- A member filter whose execute call raises. -/
def faultFilter : Filter :=
  { name := "FaultFilter", requiresMetadata := false,
    run := fun _ _ => .error "boom" }

/-- A metadata-requiring member filter in the shape of the mutability check:
fails closed when the snapshot is absent. -/
def mutableFilter : Filter :=
  { name := "MutableFilter", requiresMetadata := true,
    run := fun _ m =>
      match m with
      | none => .ok { ok := false, message := some "MutableSocials -> Metadata not available" }
      | some md => .ok { ok := (md.isMutable == some false) } }

/-- Concrete pool used by the witnesses. -/
def poolW : PoolKeys := { baseMint := "MintA" }

/-- Witness for C1 at a concrete pipeline: a passing filter, then a failing
pool-size filter, then a later filter that is never evaluated. -/
theorem C1_witness :
    PoolFilters.execute [passFilter, sizeFailFilter, faultFilter] poolW none none =
      { result := { ok := false, message := some "Pool size 3 below min 5" },
        evaluated := ["PassFilter", "PoolSizeFilter"], fetchCount := 0 } := by
  have h := (C1_pipeline_first_failure_short_circuit [passFilter] [faultFilter]
      sizeFailFilter poolW none none none rfl).1
  have h2 := (h (by
      intro g hg
      simp only [List.mem_singleton] at hg
      subst hg
      exact ⟨{ ok := true }, rfl, rfl⟩)).1
      { ok := false, message := some "Pool size 3 below min 5" } rfl rfl
  simpa using h2

/-- Witness for C2 at a concrete pipeline containing a metadata-requiring
filter: a caller-passed snapshot means zero fetches, and with no snapshot and
a failed fetch the members are still evaluated with an absent snapshot. -/
theorem C2_witness :
    (PoolFilters.execute [mutableFilter, passFilter] poolW
        (some { name := "Tok", symbol := "TK", uri := "u" }) none).fetchCount = 0 ∧
    (PoolFilters.execute [mutableFilter, passFilter] poolW none none).result =
      { ok := false, message := some "MutableSocials -> Metadata not available" } := by
  constructor
  · exact (C2_metadata_fetched_at_most_once [mutableFilter, passFilter] poolW
      (some { name := "Tok", symbol := "TK", uri := "u" }) none).2.1 rfl
  · have h := (C2_metadata_fetched_at_most_once [mutableFilter, passFilter] poolW
      none none).2.2.2 rfl rfl
    exact h.1.trans (by decide)

/-! Position tracker: PNL computation and exit-condition evaluation
(Bot.checkSell, src/bot.ts lines 554-642). -/

/-- BotConfig (src/bot.ts lines 69-106), restricted to the fields the
embedded workflows read.  Raw token amounts are integer base units. -/
structure BotConfig where
  oneTokenAtATime : Bool
  useSnipeList : Bool
  autoBuy : Bool
  maxBuyRetries : Nat
  maxSellRetries : Nat
  maxPoolSizeRaw : Nat
  quoteAmountRaw : Nat
  quoteMint : String
  takeProfitPercentage : ℚ
  stopLossPercentage : ℚ
  maxSellDurationSeconds : ℚ
  sellTimedNameKeywords : List String
  sellTimedNameDurationSeconds : ℚ
deriving DecidableEq, Repr

/-- BuyOrderDetails (src/bot.ts lines 108-115); token amounts as raw units,
buyTimestamp in milliseconds. -/
structure BuyOrderDetails where
  mint : String
  buyTimestamp : Nat
  quoteAmountUsed : Nat
  minBaseTokenAmountReceived : Nat
  tokenName : Option String := none
  tokenSymbol : Option String := none
deriving DecidableEq, Repr

/-- PNL percentage as computed in Bot.checkSell (src/bot.ts lines 586-588):
pnlRaw.mul(10000).div(cost) with the BN truncating (toward-zero) division,
then divided by 100; zero when the cost is zero. -/
def pnlPercent (quoteAmountUsed currentQuoteValue : Nat) : ℚ :=
  if quoteAmountUsed = 0 then 0
  else
    ((Int.tdiv (((currentQuoteValue : Int) - (quoteAmountUsed : Int)) * 10000)
        (quoteAmountUsed : Int) : Int) : ℚ) / 100

/-- Elapsed seconds since the buy, as in src/bot.ts lines 604-605 and 616-617:
(Date.now() - buyTimestamp) / 1000, times in milliseconds. -/
def elapsedSeconds (now buyTimestamp : Nat) : ℚ :=
  ((now : ℚ) - (buyTimestamp : ℚ)) / 1000

/-- Lower-casing of a string, as JS toLowerCase restricted to the characters
the model cares about. -/
def lowerStr (s : String) : String := String.mk (s.data.map Char.toLower)

/-- Substring occurrence on character lists (JS String.prototype.includes). -/
def containsSub (needle : List Char) : List Char → Bool
  | [] => needle.isEmpty
  | c :: t => needle.isPrefixOf (c :: t) || containsSub needle t

/-- The keyword test of src/bot.ts line 613-615:
tokenName.toLowerCase().includes(keyword.toLowerCase()). -/
def nameIncludes (tokenName keyword : String) : Bool :=
  containsSub (lowerStr keyword).data (lowerStr tokenName).data

/-- The four exit reasons produced by Bot.checkSell (the reason strings
take_profit, stop_loss, max_duration_reached, timed_keyword_match). -/
inductive SellReason
  | takeProfit
  | stopLoss
  | maxDurationReached
  | timedKeywordMatch
deriving DecidableEq, Repr

/-- The exit-reason selection of Bot.checkSell (src/bot.ts lines 592-622):
an if / else-if chain over take-profit, stop-loss, max-holding-duration and
name-keyword timed exit.  pnl is the computed pnlPercentage and now the
current time in milliseconds. -/
def checkSellReason (cfg : BotConfig) (order : BuyOrderDetails) (pnl : ℚ)
    (now : Nat) : Option SellReason :=
  if cfg.takeProfitPercentage > 0 ∧ pnl ≥ cfg.takeProfitPercentage then
    some .takeProfit
  else if cfg.stopLossPercentage > 0 ∧ pnl ≤ -cfg.stopLossPercentage then
    some .stopLoss
  else if cfg.maxSellDurationSeconds > 0 ∧ order.buyTimestamp ≠ 0 then
    if elapsedSeconds now order.buyTimestamp ≥ cfg.maxSellDurationSeconds then
      some .maxDurationReached
    else
      none
  else if cfg.sellTimedNameKeywords.length > 0 ∧ cfg.sellTimedNameDurationSeconds > 0 ∧
      order.buyTimestamp ≠ 0 then
    match cfg.sellTimedNameKeywords.find?
        (fun kw => nameIncludes (order.tokenName.getD "") kw) with
    | some _ =>
      if elapsedSeconds now order.buyTimestamp ≥ cfg.sellTimedNameDurationSeconds then
        some .timedKeywordMatch
      else
        none
    | none => none
  else
    none

/-- The take-profit trigger in the words of the claim: pnlPercent at or above
the threshold, when the threshold is positive. -/
def takeProfitMatch (cfg : BotConfig) (pnl : ℚ) : Bool :=
  decide (cfg.takeProfitPercentage > 0 ∧ pnl ≥ cfg.takeProfitPercentage)

/-- The stop-loss trigger in the words of the claim. -/
def stopLossMatch (cfg : BotConfig) (pnl : ℚ) : Bool :=
  decide (cfg.stopLossPercentage > 0 ∧ pnl ≤ -cfg.stopLossPercentage)

/-- The max-holding-duration trigger in the words of the claim: configured
and elapsed time at or above the configured seconds. -/
def maxDurationMatch (cfg : BotConfig) (order : BuyOrderDetails) (now : Nat) : Bool :=
  decide (cfg.maxSellDurationSeconds > 0 ∧ order.buyTimestamp ≠ 0 ∧
    elapsedSeconds now order.buyTimestamp ≥ cfg.maxSellDurationSeconds)

/-- The name-keyword timed-exit trigger in the words of the claim: configured,
elapsed time at or above the configured seconds, and the recorded token name
contains a configured keyword (case-insensitive substring). -/
def keywordTimedMatch (cfg : BotConfig) (order : BuyOrderDetails) (now : Nat) : Bool :=
  (decide (cfg.sellTimedNameKeywords.length > 0 ∧ cfg.sellTimedNameDurationSeconds > 0 ∧
      order.buyTimestamp ≠ 0)) &&
  cfg.sellTimedNameKeywords.any (fun kw => nameIncludes (order.tokenName.getD "") kw) &&
  decide (elapsedSeconds now order.buyTimestamp ≥ cfg.sellTimedNameDurationSeconds)

/-- Modelled from the claim (C5): flat first-match priority over the four exit
triggers, each trigger tested independently and the first match returned. -/
def checkSellReasonSpec (cfg : BotConfig) (order : BuyOrderDetails) (pnl : ℚ)
    (now : Nat) : Option SellReason :=
  if takeProfitMatch cfg pnl then some .takeProfit
  else if stopLossMatch cfg pnl then some .stopLoss
  else if maxDurationMatch cfg order now then some .maxDurationReached
  else if keywordTimedMatch cfg order now then some .timedKeywordMatch
  else none

/-- Configuration exhibiting the C5 counterexample: take-profit 300, stop-loss
20, max duration 200 s, keyword list containing pepe with timed duration 100 s. -/
def cfgC5 : BotConfig :=
  { oneTokenAtATime := false, useSnipeList := false, autoBuy := true,
    maxBuyRetries := 1, maxSellRetries := 1, maxPoolSizeRaw := 0,
    quoteAmountRaw := 10, quoteMint := "WSOL",
    takeProfitPercentage := 300, stopLossPercentage := 20,
    maxSellDurationSeconds := 200, sellTimedNameKeywords := ["pepe"],
    sellTimedNameDurationSeconds := 100 }

/-- Position exhibiting the C5 counterexample: bought at t = 1000 ms with
token name Pepe Coin. -/
def orderC5 : BuyOrderDetails :=
  { mint := "MintA", buyTimestamp := 1000, quoteAmountUsed := 10,
    minBaseTokenAmountReceived := 5, tokenName := some "Pepe Coin" }

/-- C5 counterexample: at pnl 10 and now = 151000 ms (elapsed 150 s), the
name-keyword timed trigger matches and no earlier trigger matches, yet
checkSellReason returns none, because the keyword branch is never evaluated
when the max-holding-duration trigger is configured; the claimed flat
first-match priority would return the keyword reason. -/
theorem C5_counterexample :
    checkSellReason cfgC5 orderC5 10 151000 = none ∧
    takeProfitMatch cfgC5 10 = false ∧
    stopLossMatch cfgC5 10 = false ∧
    maxDurationMatch cfgC5 orderC5 151000 = false ∧
    keywordTimedMatch cfgC5 orderC5 151000 = true ∧
    checkSellReasonSpec cfgC5 orderC5 10 151000 = some SellReason.timedKeywordMatch := by
  have hel : elapsedSeconds 151000 1000 = 150 := by
    unfold elapsedSeconds
    norm_num
  have h1 : takeProfitMatch cfgC5 10 = false := by
    norm_num [takeProfitMatch, cfgC5]
  have h2 : stopLossMatch cfgC5 10 = false := by
    norm_num [stopLossMatch, cfgC5]
  have h3 : maxDurationMatch cfgC5 orderC5 151000 = false := by
    norm_num [maxDurationMatch, cfgC5, orderC5, hel]
  have hany : List.any ["pepe"] (fun kw => nameIncludes "Pepe Coin" kw) = true := by decide
  have h4 : keywordTimedMatch cfgC5 orderC5 151000 = true := by
    simp only [keywordTimedMatch, cfgC5, orderC5, hany, Bool.and_eq_true, decide_eq_true_eq]
    refine ⟨⟨⟨by norm_num, by norm_num, by norm_num⟩, rfl⟩, by rw [hel]; norm_num⟩
  have hnone : checkSellReason cfgC5 orderC5 10 151000 = none := by
    simp only [checkSellReason, cfgC5, orderC5]
    rw [if_neg (by norm_num), if_neg (by norm_num), if_pos (by norm_num),
      if_neg (by norm_num [elapsedSeconds])]
  have hspec : checkSellReasonSpec cfgC5 orderC5 10 151000 =
      some SellReason.timedKeywordMatch := by
    simp [checkSellReasonSpec, h1, h2, h3, h4]
  exact ⟨hnone, h1, h2, h3, h4, hspec⟩

/-- C5 (amended): the triggers are tested in the priority take-profit,
stop-loss, max-holding-duration, name-keyword timed exit, the first matching
trigger is returned and a later trigger is never returned when an earlier one
matches; however the name-keyword timed exit is only evaluated when the
max-holding-duration trigger is not configured (threshold 0 or no recorded
buy timestamp) — when max-holding-duration is configured but its elapsed-time
condition is unmet, no exit reason is returned even if the keyword trigger
matches; no disposal reason is produced when no evaluated trigger matches. -/
theorem C5_amended_exit_priority (cfg : BotConfig) (order : BuyOrderDetails)
    (pnl : ℚ) (now : Nat) :
    (takeProfitMatch cfg pnl = true →
      checkSellReason cfg order pnl now = some .takeProfit) ∧
    (takeProfitMatch cfg pnl = false → stopLossMatch cfg pnl = true →
      checkSellReason cfg order pnl now = some .stopLoss) ∧
    (takeProfitMatch cfg pnl = false → stopLossMatch cfg pnl = false →
      cfg.maxSellDurationSeconds > 0 → order.buyTimestamp ≠ 0 →
      checkSellReason cfg order pnl now =
        (if elapsedSeconds now order.buyTimestamp ≥ cfg.maxSellDurationSeconds then
          some .maxDurationReached else none)) ∧
    (takeProfitMatch cfg pnl = false → stopLossMatch cfg pnl = false →
      ¬(cfg.maxSellDurationSeconds > 0 ∧ order.buyTimestamp ≠ 0) →
      checkSellReason cfg order pnl now =
        (if keywordTimedMatch cfg order now then some .timedKeywordMatch else none)) := by
  have htp := of_decide_eq_true (p := cfg.takeProfitPercentage > 0 ∧ pnl ≥ cfg.takeProfitPercentage)
  have hsl := of_decide_eq_true (p := cfg.stopLossPercentage > 0 ∧ pnl ≤ -cfg.stopLossPercentage)
  refine ⟨fun h1 => ?_, fun h1 h2 => ?_, fun h1 h2 h3 h4 => ?_, fun h1 h2 h3 => ?_⟩
  · have := htp h1
    simp [checkSellReason, this]
  · have hn1 : ¬(cfg.takeProfitPercentage > 0 ∧ pnl ≥ cfg.takeProfitPercentage) :=
      of_decide_eq_false h1
    have := hsl h2
    simp [checkSellReason, hn1, this]
  · have hn1 : ¬(cfg.takeProfitPercentage > 0 ∧ pnl ≥ cfg.takeProfitPercentage) :=
      of_decide_eq_false h1
    have hn2 : ¬(cfg.stopLossPercentage > 0 ∧ pnl ≤ -cfg.stopLossPercentage) :=
      of_decide_eq_false h2
    simp [checkSellReason, hn1, hn2, h3, h4]
  · have hn1 : ¬(cfg.takeProfitPercentage > 0 ∧ pnl ≥ cfg.takeProfitPercentage) :=
      of_decide_eq_false h1
    have hn2 : ¬(cfg.stopLossPercentage > 0 ∧ pnl ≤ -cfg.stopLossPercentage) :=
      of_decide_eq_false h2
    by_cases hk : cfg.sellTimedNameKeywords.length > 0 ∧
        cfg.sellTimedNameDurationSeconds > 0 ∧ order.buyTimestamp ≠ 0
    · have hdur : ¬(cfg.maxSellDurationSeconds > 0) := fun hd => h3 ⟨hd, hk.2.2⟩
      rcases hfind : cfg.sellTimedNameKeywords.find?
          (fun kw => nameIncludes (order.tokenName.getD "") kw) with _ | kw
      · have hany : cfg.sellTimedNameKeywords.any
            (fun kw => nameIncludes (order.tokenName.getD "") kw) = false := by
          rw [List.any_eq_false]
          intro x hx
          have := List.find?_eq_none.mp hfind x hx
          simpa using this
        simp [checkSellReason, hn1, hn2, h3, hdur, hk, hfind, keywordTimedMatch, hany]
      · have hany : cfg.sellTimedNameKeywords.any
            (fun kw => nameIncludes (order.tokenName.getD "") kw) = true := by
          rw [List.any_eq_true]
          exact ⟨kw, List.mem_of_find?_eq_some hfind, by
            simpa using List.find?_some hfind⟩
        by_cases hel : elapsedSeconds now order.buyTimestamp ≥ cfg.sellTimedNameDurationSeconds
        · simp [checkSellReason, hn1, hn2, h3, hdur, hk, hfind, keywordTimedMatch, hany, hel]
        · simp [checkSellReason, hn1, hn2, h3, hdur, hk, hfind, keywordTimedMatch, hany, hel]
    · have hkw : keywordTimedMatch cfg order now = false := by
        simp only [keywordTimedMatch]
        rw [decide_eq_false hk]
        simp
      simp [checkSellReason, hn1, hn2, h3, hk, hkw]

/-- Witness for the amended C5: with take-profit threshold 300 and pnl 400 the
take-profit trigger matches and is the returned reason. -/
theorem C5_amended_witness :
    checkSellReason cfgC5 orderC5 400 151000 = some SellReason.takeProfit :=
  (C5_amended_exit_priority cfgC5 orderC5 400 151000).1 (by decide)

lemma tmod_abs_lt (a b : Int) (hb : 0 < b) : |a.tmod b| < b := by
  have h2 := Int.tdiv_add_tmod (-a) b
  rw [Int.neg_tdiv a b] at h2
  have h1 := Int.tdiv_add_tmod a b
  have hneg : (-a).tmod b = -(a.tmod b) := by linarith
  rcases le_or_lt 0 a with ha | ha
  · rw [abs_of_nonneg (Int.tmod_nonneg b ha)]
    exact Int.tmod_lt_of_pos a hb
  · have hna : 0 ≤ -a := by linarith
    have hnn := Int.tmod_nonneg (a := -a) b hna
    rw [hneg] at hnn
    rw [abs_of_nonpos (by linarith)]
    have := Int.tmod_lt_of_pos (-a) hb
    rw [hneg] at this
    exact this

lemma cast_tdiv_sub_abs_lt (a b : Int) (hb : 0 < b) :
    |((a.tdiv b : Int) : ℚ) - (a : ℚ) / (b : ℚ)| < 1 := by
  have hb0 : (0 : ℚ) < (b : ℚ) := by exact_mod_cast hb
  have hid : (b : ℚ) * ((a.tdiv b : Int) : ℚ) + ((a.tmod b : Int) : ℚ) = (a : ℚ) := by
    exact_mod_cast congrArg (fun z : Int => (z : ℚ)) (Int.tdiv_add_tmod a b)
  have key : ((a.tdiv b : Int) : ℚ) - (a : ℚ) / (b : ℚ) =
      -((a.tmod b : Int) : ℚ) / (b : ℚ) := by
    field_simp
    linarith
  rw [key, abs_div, abs_neg, abs_of_pos hb0, div_lt_one hb0]
  have := tmod_abs_lt a b hb
  calc |((a.tmod b : Int) : ℚ)| = ((|a.tmod b| : Int) : ℚ) := by
        rw [Int.cast_abs]
    _ < (b : ℚ) := by exact_mod_cast this

/-- C6: for a position with non-zero cost basis, the computed pnlPercent is an
exact rational with two decimal places of reportable precision (an integer
multiple of 1/100) and agrees with the exact rational value
(currentValue - costBasis) / costBasis * 100 to within 1/100; the computation
is a pure function of its inputs, hence deterministic. -/
theorem C6_pnl_exact_two_decimals (cost cv : Nat) (hc : cost ≠ 0) :
    (∃ k : Int, pnlPercent cost cv = (k : ℚ) / 100) ∧
    |pnlPercent cost cv - (((cv : ℚ) - (cost : ℚ)) / (cost : ℚ)) * 100| < 1 / 100 := by
  have hcpos : 0 < (cost : Int) := by exact_mod_cast Nat.pos_of_ne_zero hc
  have hcq : (0 : ℚ) < (cost : ℚ) := by exact_mod_cast Nat.pos_of_ne_zero hc
  constructor
  · exact ⟨Int.tdiv (((cv : Int) - (cost : Int)) * 10000) (cost : Int), by
      simp [pnlPercent, hc]⟩
  · have hne : (cost : ℚ) ≠ 0 := hcq.ne.symm
    have h := cast_tdiv_sub_abs_lt (((cv : Int) - (cost : Int)) * 10000) (cost : Int) hcpos
    have hexp : ((((cv : Int) - (cost : Int)) * 10000 : Int) : ℚ) / ((cost : Int) : ℚ) =
        (((cv : ℚ) - (cost : ℚ)) / (cost : ℚ)) * 100 * 100 := by
      push_cast
      field_simp
      ring
    rw [hexp] at h
    have hpnl : pnlPercent cost cv =
        ((Int.tdiv (((cv : Int) - (cost : Int)) * 10000) (cost : Int) : Int) : ℚ) / 100 := by
      simp [pnlPercent, hc]
    rw [hpnl]
    have hsub : ((Int.tdiv (((cv : Int) - (cost : Int)) * 10000) (cost : Int) : Int) : ℚ) / 100 -
        (((cv : ℚ) - (cost : ℚ)) / (cost : ℚ)) * 100 =
        (((Int.tdiv (((cv : Int) - (cost : Int)) * 10000) (cost : Int) : Int) : ℚ) -
          (((cv : ℚ) - (cost : ℚ)) / (cost : ℚ)) * 100 * 100) / 100 := by
      ring
    rw [hsub, abs_div, abs_of_pos (show (0 : ℚ) < 100 by norm_num)]
    linarith

/-- Witness for C6 at cost 3, current value 4: pnl is 3333/100 and the exact
value is 100/3, which differ by 1/300 < 1/100. -/
theorem C6_witness :
    (∃ k : Int, pnlPercent 3 4 = (k : ℚ) / 100) ∧
    |pnlPercent 3 4 - ((4 - (3 : ℚ)) / 3) * 100| < 1 / 100 := by
  have h := C6_pnl_exact_two_decimals 3 4 (by decide)
  simpa using h

/-! Trade execution engine: the buy workflow (Bot.buy, src/bot.ts lines
185-462) and the sell workflow (Bot.sell / Bot.checkSell / Bot.sellOrder,
lines 464-757). -/

/-- Kinds of Telegram notification messages sent by the workflows. -/
inductive TgKind
  | potentialBuy
  | confirmedBuy
  | buyFailed
  | sellTrigger
  | confirmedSell
  | sellFailed
deriving DecidableEq, Repr

/-- Externally visible actions of a workflow run: mutex operations,
transaction submissions (attempt index, the recentBlockhash the signed
transaction carries, and whether the executor confirmed it) and
notification messages. -/
inductive Ev
  | mutexAcquire
  | mutexRelease
  | submit (attempt : Nat) (blockhash : Nat) (confirmed : Bool)
  | tg (kind : TgKind)
deriving DecidableEq, Repr

/-- The mutable fields of the Bot object the embedded workflows touch
(src/bot.ts lines 124-135): the async-mutex lock state, the processingMint
set, and the buyOrders / sellOrders keyed maps (sellOrders holds the mints
whose flag is true). -/
structure BotState where
  mutexLocked : Bool
  processingMint : List String
  buyOrders : List (String × BuyOrderDetails)
  sellOrders : List String
deriving DecidableEq, Repr

/-- Environment of one Bot.buy invocation: the value each external call
observes.  fetchInfoBaseMint: none models Liquidity.fetchInfo throwing or
returning nothing, some none a fetched pool info without a base mint, and
some (some m) a resolved base mint m.  exec i is the result of the swap
call of attempt i (none = the attempt threw, some c = the executor
returned confirmed = c); blockhash i is the latest blockhash the chain
reports during attempt i. -/
structure BuyEnv where
  fetchInfoBaseMint : Option (Option String)
  marketOk : Bool
  inSnipeList : Bool
  needsMetadata : Bool
  metadata : Option MinimalTokenMetadata
  filterOk : Bool
  quoteAtaOk : Bool
  mintAtaOk : Bool
  simOk : Bool
  simAmountOutRaw : Nat
  minSimAmountOutRaw : Nat
  blockhash : Nat → Nat
  exec : Nat → Option Bool
  now : Nat

/-- The BuyOrderDetails recorded on a confirmed buy (src/bot.ts lines
395-415): the timestamp of the confirmation, the quote amount used, the
slippage-adjusted minimum output from the pre-loop simulation, and the
metadata snapshot fields when one was fetched. -/
def mkBuyOrder (cfg : BotConfig) (env : BuyEnv) (m : String)
    (metadata : Option MinimalTokenMetadata) : BuyOrderDetails :=
  { mint := m, buyTimestamp := env.now,
    quoteAmountUsed := cfg.quoteAmountRaw,
    minBaseTokenAmountReceived := env.minSimAmountOutRaw,
    tokenName := metadata.map (fun md => md.name),
    tokenSymbol := metadata.map (fun md => md.symbol) }

/-- The buy retry loop (src/bot.ts lines 340-434), attempt index i with the
given fuel remaining: each attempt fetches the latest blockhash inside the
loop and submits with it; a non-confirmed result continues; the first
confirmed result sends the confirmed-buy alert, records the buy order and
breaks.  A throwing attempt (exec i = none) is caught and continues.
Returns the state, the events, and whether the loop broke on a confirmation. -/
def buyLoop (cfg : BotConfig) (env : BuyEnv) (m : String)
    (metadata : Option MinimalTokenMetadata) :
    Nat → Nat → BotState → BotState × List Ev × Bool
  | 0, _, s => (s, [], false)
  | fuel + 1, i, s =>
    match env.exec i with
    | none => buyLoop cfg env m metadata fuel (i + 1) s
    | some false =>
      let rest := buyLoop cfg env m metadata fuel (i + 1) s
      (rest.1, Ev.submit i (env.blockhash i) false :: rest.2.1, rest.2.2)
    | some true =>
      ({ s with buyOrders := (m, mkBuyOrder cfg env m metadata) :: s.buyOrders },
        Ev.submit i (env.blockhash i) true ::
          (if cfg.autoBuy then [Ev.tg TgKind.confirmedBuy] else []),
        true)

/-- The mutex-acquisition step of Bot.buy (src/bot.ts lines 224-227): when
oneTokenAtATime is on, lock the mutex and add the base mint to the
processingMint set. -/
def buyLocked (cfg : BotConfig) (s : BotState) (m : String) : BotState :=
  if cfg.oneTokenAtATime then
    { s with mutexLocked := true,
             processingMint :=
               if m ∈ s.processingMint then s.processingMint
               else m :: s.processingMint }
  else s

/-- The post-gate portion of the try body of Bot.buy (src/bot.ts lines
229-442), from the market load onward, with s1 and evs1 the state and
events left by the mutex-acquisition step. -/
def buyAfterGate (cfg : BotConfig) (env : BuyEnv) (m : String)
    (s1 : BotState) (evs1 : List Ev) : BotState × List Ev × Option String :=
  if !env.marketOk then (s1, evs1, some m)
  else if cfg.useSnipeList && !env.inSnipeList then (s1, evs1, some m)
  else
    let metadata := if env.needsMetadata then env.metadata else none
    if !env.filterOk then (s1, evs1, some m)
    else
      let evs2 := evs1 ++ [Ev.tg TgKind.potentialBuy]
      if !cfg.autoBuy then (s1, evs2, some m)
      else if !env.quoteAtaOk then (s1, evs2, some m)
      else if !env.mintAtaOk then (s1, evs2, some m)
      else if !env.simOk then (s1, evs2, some m)
      else if cfg.maxPoolSizeRaw ≠ 0 ∧ env.simAmountOutRaw > cfg.maxPoolSizeRaw then
        (s1, evs2, some m)
      else
        let buyConfirmed := false
        let looped := buyLoop cfg env m metadata cfg.maxBuyRetries 0 s1
        let evs3 := if !buyConfirmed && cfg.autoBuy then [Ev.tg TgKind.buyFailed] else []
        (looped.1, evs2 ++ looped.2.1 ++ evs3, some m)

/-- The try body of Bot.buy (src/bot.ts lines 192-442).  Every return and
every thrown exception ends the body (the catch only logs); the third
component is the baseMintStr visible to the finally block. -/
def buyBody (cfg : BotConfig) (env : BuyEnv) (s : BotState) :
    BotState × List Ev × Option String :=
  match env.fetchInfoBaseMint with
  | none => (s, [], none)
  | some none => (s, [], none)
  | some (some m) =>
    if cfg.oneTokenAtATime && s.mutexLocked then (s, [], some m)
    else if cfg.oneTokenAtATime && (List.lookup m s.buyOrders).isSome then (s, [], some m)
    else
      buyAfterGate cfg env m (buyLocked cfg s m)
        (if cfg.oneTokenAtATime then [Ev.mutexAcquire] else [])

/-- The finally block of Bot.buy (src/bot.ts lines 445-461): release the
mutex when oneTokenAtATime and the base mint is in processingMint, then
remove the mint from processingMint; with no base mint, release the mutex
defensively whenever it is locked. -/
def buyFinally (cfg : BotConfig) (baseMintStr : Option String) (s : BotState) :
    BotState × List Ev :=
  let rel :=
    match baseMintStr with
    | some m =>
      if cfg.oneTokenAtATime ∧ m ∈ s.processingMint then
        ({ s with mutexLocked := false }, [Ev.mutexRelease])
      else (s, ([] : List Ev))
    | none => (s, ([] : List Ev))
  match baseMintStr with
  | some m => ({ rel.1 with processingMint := rel.1.processingMint.erase m }, rel.2)
  | none =>
    if cfg.oneTokenAtATime ∧ rel.1.mutexLocked then
      ({ rel.1 with mutexLocked := false }, rel.2 ++ [Ev.mutexRelease])
    else (rel.1, rel.2)

/-- Bot.buy (src/bot.ts lines 185-462): the try body followed by the
finally block. -/
def Bot.buy (cfg : BotConfig) (env : BuyEnv) (s : BotState) : BotState × List Ev :=
  let body := buyBody cfg env s
  let fin := buyFinally cfg body.2.2 body.1
  (fin.1, body.2.1 ++ fin.2)

/-- The SPL token account a sell notification carries, as far as the
workflow reads it. -/
structure TokenAccount where
  mint : String
  amount : Nat
deriving DecidableEq, Repr

/-- Environment of one Bot.sell invocation.  account: none models getAccount
throwing or returning nothing.  currentValueRaw is the simulated
zero-slippage quote value of the held amount (none = the simulation threw,
caught inside checkSell).  exec i is the result of the swap call of sell
attempt i, as in BuyEnv. -/
structure SellEnv where
  account : Option TokenAccount
  poolOk : Bool
  marketOk : Bool
  currentValueRaw : Option Nat
  blockhash : Nat → Nat
  exec : Nat → Option Bool
  now : Nat

/-- The sell retry loop (src/bot.ts lines 657-742): each attempt fetches a
fresh blockhash and submits; the first confirmed result sends the
confirmed-sell alert, removes the buy order and breaks; non-confirmed
results and thrown attempts continue. -/
def sellLoop (cfg : BotConfig) (env : SellEnv) (m : String) :
    Nat → Nat → BotState → BotState × List Ev × Bool
  | 0, _, s => (s, [], false)
  | fuel + 1, i, s =>
    match env.exec i with
    | none => sellLoop cfg env m fuel (i + 1) s
    | some false =>
      let rest := sellLoop cfg env m fuel (i + 1) s
      (rest.1, Ev.submit i (env.blockhash i) false :: rest.2.1, rest.2.2)
    | some true =>
      ({ s with buyOrders := s.buyOrders.filter (fun e => e.1 != m) },
        [Ev.submit i (env.blockhash i) true, Ev.tg TgKind.confirmedSell], true)

/-- Bot.sellOrder (src/bot.ts lines 644-757): defensively set the
processing flag if unset, run the retry loop, send the sell-failed alert
when no attempt confirmed, and clear the processing flag regardless of
outcome. -/
def Bot.sellOrder (cfg : BotConfig) (env : SellEnv) (m : String) (s : BotState) :
    BotState × List Ev :=
  let s0 := if m ∈ s.sellOrders then s else { s with sellOrders := m :: s.sellOrders }
  let looped := sellLoop cfg env m cfg.maxSellRetries 0 s0
  let evs := looped.2.1 ++ (if looped.2.2 then [] else [Ev.tg TgKind.sellFailed])
  ({ looped.1 with sellOrders := looped.1.sellOrders.filter (fun x => x != m) }, evs)

/-- Bot.checkSell (src/bot.ts lines 554-642): requires a recorded buy order
with non-zero cost and a non-zero held amount, simulates the current quote
value, computes the PNL and the exit reason, and on a reason sends the
sell-trigger alert and runs sellOrder; any fault in the simulation is
caught and only logged. -/
def Bot.checkSell (cfg : BotConfig) (env : SellEnv) (m : String) (amount : Nat)
    (s : BotState) : BotState × List Ev :=
  match List.lookup m s.buyOrders with
  | none => (s, [])
  | some order =>
    if order.quoteAmountUsed = 0 then (s, [])
    else if amount = 0 then (s, [])
    else
      match env.currentValueRaw with
      | none => (s, [])
      | some cv =>
        let pnl := pnlPercent order.quoteAmountUsed cv
        match checkSellReason cfg order pnl env.now with
        | some _ =>
          let sold := Bot.sellOrder cfg env m s
          (sold.1, Ev.tg TgKind.sellTrigger :: sold.2)
        | none => (s, [])

/-- The try body plus catch of Bot.sell (src/bot.ts lines 472-541): resolve
the account, skip quote-token and zero-balance accounts, skip when the
per-mint processing flag is already set, otherwise set the flag and
proceed; a missing pool or a throwing market load clears the flag (the
pool branch by its explicit delete, the throw through the catch).  The
third component is the mint visible to the finally block. -/
def sellBody (cfg : BotConfig) (env : SellEnv) (s : BotState) :
    BotState × List Ev × Option String :=
  match env.account with
  | none => (s, [], none)
  | some acc =>
    let m := acc.mint
    if cfg.quoteMint == m then (s, [], some m)
    else if acc.amount = 0 then (s, [], some m)
    else if m ∈ s.sellOrders then (s, [], some m)
    else
      let s1 := { s with sellOrders := m :: s.sellOrders }
      if !env.poolOk then
        ({ s1 with sellOrders := s1.sellOrders.filter (fun x => x != m) }, [], some m)
      else if !env.marketOk then
        ({ s1 with sellOrders := s1.sellOrders.filter (fun x => x != m) }, [], some m)
      else
        let checked := Bot.checkSell cfg env m acc.amount s1
        (checked.1, checked.2, some m)

/-- Bot.sell (src/bot.ts lines 464-552): the body followed by the finally
block, which clears the processing flag for the resolved mint whenever it
is still set. -/
def Bot.sell (cfg : BotConfig) (env : SellEnv) (s : BotState) : BotState × List Ev :=
  let body := sellBody cfg env s
  match body.2.2 with
  | some m =>
    if m ∈ body.1.sellOrders then
      ({ body.1 with sellOrders := body.1.sellOrders.filter (fun x => x != m) }, body.2.1)
    else (body.1, body.2.1)
  | none => (body.1, body.2.1)

/-! Workflow theorems. -/

/-- The empty Bot state at startup. -/
def stateEmpty : BotState :=
  { mutexLocked := false, processingMint := [], buyOrders := [], sellOrders := [] }

/-- A baseline configuration shared by the concrete scenarios. -/
def cfgBase : BotConfig :=
  { oneTokenAtATime := false, useSnipeList := false, autoBuy := true,
    maxBuyRetries := 3, maxSellRetries := 2, maxPoolSizeRaw := 0,
    quoteAmountRaw := 10, quoteMint := "WSOL",
    takeProfitPercentage := 0, stopLossPercentage := 0,
    maxSellDurationSeconds := 0, sellTimedNameKeywords := [],
    sellTimedNameDurationSeconds := 0 }

lemma buyLoop_no_confirm_state (cfg : BotConfig) (env : BuyEnv) (m : String)
    (md : Option MinimalTokenMetadata) (h : ∀ i, env.exec i ≠ some true) :
    ∀ fuel start s, (buyLoop cfg env m md fuel start s).1 = s ∧
      (buyLoop cfg env m md fuel start s).2.2 = false := by
  intro fuel
  induction fuel with
  | zero => intro start s; exact ⟨rfl, rfl⟩
  | succ f ih =>
    intro start s
    rcases hx : env.exec start with _ | b
    · simpa [buyLoop, hx] using ih (start + 1) s
    · cases b
      · simpa [buyLoop, hx] using ih (start + 1) s
      · exact absurd hx (h start)

lemma buyLoop_first_confirm (cfg : BotConfig) (env : BuyEnv) (m : String)
    (md : Option MinimalTokenMetadata) :
    ∀ j fuel start s, j < fuel → env.exec (start + j) = some true →
      (∀ i, start ≤ i → i < start + j → env.exec i = some false) →
      buyLoop cfg env m md fuel start s =
        ({ s with buyOrders := (m, mkBuyOrder cfg env m md) :: s.buyOrders },
          (List.range' start j).map (fun i => Ev.submit i (env.blockhash i) false) ++
            Ev.submit (start + j) (env.blockhash (start + j)) true ::
              (if cfg.autoBuy then [Ev.tg TgKind.confirmedBuy] else []),
          true) := by
  intro j
  induction j with
  | zero =>
    intro fuel start s hj hconf _
    rcases fuel with _ | f
    · omega
    · simp only [buyLoop]
      rw [show start + 0 = start from rfl] at hconf
      simp [hconf, List.range']
  | succ k ih =>
    intro fuel start s hj hconf hbefore
    rcases fuel with _ | f
    · omega
    · have hstart : env.exec start = some false := hbefore start le_rfl (by omega)
      have hconf2 : env.exec (start + 1 + k) = some true := by
        rw [show start + 1 + k = start + (k + 1) from by omega]
        exact hconf
      have hbefore2 : ∀ i, start + 1 ≤ i → i < start + 1 + k → env.exec i = some false := by
        intro i h1 h2
        exact hbefore i (by omega) (by omega)
      have := ih f (start + 1) s (by omega) hconf2 hbefore2
      have harith : start + 1 + k = start + (k + 1) := by omega
      simp only [buyLoop, hstart, this, List.range'_succ, List.map_cons,
        List.cons_append, harith]

lemma buyLoop_exhaust (cfg : BotConfig) (env : BuyEnv) (m : String)
    (md : Option MinimalTokenMetadata) :
    ∀ fuel start s, (∀ i, start ≤ i → i < start + fuel → env.exec i = some false) →
      buyLoop cfg env m md fuel start s =
        (s, (List.range' start fuel).map (fun i => Ev.submit i (env.blockhash i) false),
          false) := by
  intro fuel
  induction fuel with
  | zero => intro start s _; simp [buyLoop, List.range']
  | succ f ih =>
    intro start s h
    have hstart : env.exec start = some false := h start le_rfl (by omega)
    have hrest := ih (start + 1) s (fun i h1 h2 => h i (by omega) (by omega))
    simp [buyLoop, hstart, hrest, List.range'_succ]

/-- C7: in the buy submission loop with retry ceiling N, the transaction of
attempt i carries the chain-state reference (latest blockhash) obtained
during attempt i itself; the loop exits on the first confirmed attempt j
after exactly j+1 submissions, recording the position; when all N attempts
report non-confirmed there are N submissions, each with its own per-attempt
blockhash; and a loop with no confirmed attempt records no position. -/
theorem C7_retry_loop_fresh_blockhash (cfg : BotConfig) (env : BuyEnv)
    (m : String) (md : Option MinimalTokenMetadata) (N j : Nat) (s : BotState) :
    (j < N → env.exec j = some true → (∀ i, i < j → env.exec i = some false) →
      buyLoop cfg env m md N 0 s =
        ({ s with buyOrders := (m, mkBuyOrder cfg env m md) :: s.buyOrders },
          (List.range' 0 j).map (fun i => Ev.submit i (env.blockhash i) false) ++
            Ev.submit j (env.blockhash j) true ::
              (if cfg.autoBuy then [Ev.tg TgKind.confirmedBuy] else []),
          true)) ∧
    ((∀ i, i < N → env.exec i = some false) →
      buyLoop cfg env m md N 0 s =
        (s, (List.range' 0 N).map (fun i => Ev.submit i (env.blockhash i) false),
          false)) ∧
    ((∀ i, env.exec i ≠ some true) →
      (buyLoop cfg env m md N 0 s).1.buyOrders = s.buyOrders) := by
  refine ⟨fun hj hconf hbefore => ?_, fun hall => ?_, fun hnone => ?_⟩
  · have := buyLoop_first_confirm cfg env m md j N 0 s hj
      (by simpa using hconf) (fun i h1 h2 => hbefore i (by omega))
    simpa using this
  · exact buyLoop_exhaust cfg env m md N 0 s (fun i h1 h2 => hall i (by omega))
  · rw [(buyLoop_no_confirm_state cfg env m md hnone N 0 s).1]

/-- Environment for the C7 witness: the spec scenario where the first two
submissions report non-confirmed and the third confirms, with distinct
per-attempt blockhashes. -/
def envC7w : BuyEnv :=
  { fetchInfoBaseMint := some (some "MintA"), marketOk := true, inSnipeList := false,
    needsMetadata := false, metadata := none, filterOk := true, quoteAtaOk := true,
    mintAtaOk := true, simOk := true, simAmountOutRaw := 8, minSimAmountOutRaw := 7,
    blockhash := fun i => 100 + i, exec := fun i => if i < 2 then some false else some true,
    now := 5000 }

/-- Witness for C7: with retry ceiling 3 and the third attempt confirming,
the loop performs exactly three submissions with blockhashes 100, 101, 102
and records the position. -/
theorem C7_witness :
    buyLoop cfgBase envC7w "MintA" none 3 0 stateEmpty =
      ({ stateEmpty with
          buyOrders := [("MintA", mkBuyOrder cfgBase envC7w "MintA" none)] },
        [Ev.submit 0 100 false, Ev.submit 1 101 false, Ev.submit 2 102 true,
          Ev.tg TgKind.confirmedBuy], true) := by
  have h := (C7_retry_loop_fresh_blockhash cfgBase envC7w "MintA" none 3 2 stateEmpty).1
    (by decide) (by decide) (by decide)
  rw [h]
  rfl

/-- The buy environment of the C3 failing run: pool resolution succeeds for
MintA; nothing later in the workflow is reached. -/
def envC3 : BuyEnv :=
  { fetchInfoBaseMint := some (some "MintA"), marketOk := true, inSnipeList := false,
    needsMetadata := false, metadata := none, filterOk := true, quoteAtaOk := true,
    mintAtaOk := true, simOk := true, simAmountOutRaw := 8, minSimAmountOutRaw := 7,
    blockhash := fun i => 100 + i, exec := fun _ => some true, now := 5000 }

/-- The shared state the C3 failing run starts from: another buy workflow
for MintA holds the mutex (it acquired at src/bot.ts line 225 and added
MintA to processingMint at line 226, and is suspended at the market load). -/
def stateC3 : BotState :=
  { mutexLocked := true, processingMint := ["MintA"], buyOrders := [], sellOrders := [] }

/-- C3 (failing run): with oneTokenAtATime on, a second buy for the same
mint that early-returns at the mutex-is-locked check nevertheless releases
the mutex in its finally block, because the finally releases whenever
processingMint contains the mint (src/bot.ts lines 446-450) — the run emits
mutexRelease without ever emitting mutexAcquire, unlocking the mutex the
other workflow holds. -/
theorem C3_mutex_released_by_non_acquirer :
    Bot.buy { cfgBase with oneTokenAtATime := true } envC3 stateC3 =
      ({ mutexLocked := false, processingMint := [], buyOrders := [], sellOrders := [] },
        [Ev.mutexRelease]) ∧
    Ev.mutexAcquire ∉ (Bot.buy { cfgBase with oneTokenAtATime := true } envC3 stateC3).2 := by
  decide

lemma sellLoop_no_confirm_state (cfg : BotConfig) (env : SellEnv) (m : String)
    (h : ∀ i, env.exec i ≠ some true) :
    ∀ fuel start s, (sellLoop cfg env m fuel start s).1 = s ∧
      (sellLoop cfg env m fuel start s).2.2 = false := by
  intro fuel
  induction fuel with
  | zero => intro start s; exact ⟨rfl, rfl⟩
  | succ f ih =>
    intro start s
    rcases hx : env.exec start with _ | b
    · simpa [sellLoop, hx] using ih (start + 1) s
    · cases b
      · simpa [sellLoop, hx] using ih (start + 1) s
      · exact absurd hx (h start)

lemma buyFinally_buyOrders (cfg : BotConfig) (b : Option String) (s : BotState) :
    (buyFinally cfg b s).1.buyOrders = s.buyOrders := by
  rcases b with _ | m
  · simp only [buyFinally]
    split_ifs <;> rfl
  · simp only [buyFinally]
    split_ifs <;> rfl

lemma buyLocked_buyOrders (cfg : BotConfig) (s : BotState) (m : String) :
    (buyLocked cfg s m).buyOrders = s.buyOrders := by
  unfold buyLocked
  split_ifs <;> rfl

lemma buyLoop_state_no_confirm (cfg : BotConfig) (env : BuyEnv) (m : String)
    (h : ∀ i, env.exec i ≠ some true) :
    ∀ md fuel start s, (buyLoop cfg env m md fuel start s).1 = s :=
  fun md fuel start s => (buyLoop_no_confirm_state cfg env m md h fuel start s).1

set_option maxHeartbeats 4000000 in
lemma buyAfterGate_buyOrders_no_confirm (cfg : BotConfig) (env : BuyEnv)
    (m : String) (h : ∀ i, env.exec i ≠ some true) :
    ∀ s1 evs1, (buyAfterGate cfg env m s1 evs1).1.buyOrders = s1.buyOrders := by
  intro s1 evs1
  unfold buyAfterGate
  split_ifs <;>
    first
      | rfl
      | (rw [buyLoop_state_no_confirm cfg env m h])

lemma buyBody_buyOrders_no_confirm (cfg : BotConfig) (env : BuyEnv) (s : BotState)
    (h : ∀ i, env.exec i ≠ some true) :
    (buyBody cfg env s).1.buyOrders = s.buyOrders := by
  rcases hfi : env.fetchInfoBaseMint with _ | (_ | m)
  · simp [buyBody, hfi]
  · simp [buyBody, hfi]
  · simp only [buyBody, hfi]
    split_ifs <;>
      first
        | rfl
        | (rw [buyAfterGate_buyOrders_no_confirm cfg env m h, buyLocked_buyOrders])

/-- C8: partial-failure atomicity.  A buy workflow none of whose submission
attempts confirms leaves buyOrders unchanged (no position recorded), and a
sellOrder run none of whose attempts confirms leaves buyOrders intact and
changes sellOrders only by clearing the in-flight flag of its own mint, so
a future disposal attempt for that mint can run. -/
theorem C8_partial_failure_atomicity (cfg : BotConfig) (benv : BuyEnv)
    (senv : SellEnv) (m : String) (s s2 : BotState) :
    ((∀ i, benv.exec i ≠ some true) → (Bot.buy cfg benv s).1.buyOrders = s.buyOrders) ∧
    ((∀ i, senv.exec i ≠ some true) →
      (Bot.sellOrder cfg senv m s2).1.buyOrders = s2.buyOrders ∧
      (Bot.sellOrder cfg senv m s2).1.sellOrders =
        s2.sellOrders.filter (fun x => x != m) ∧
      m ∉ (Bot.sellOrder cfg senv m s2).1.sellOrders) := by
  constructor
  · intro h
    simp only [Bot.buy]
    rw [buyFinally_buyOrders, buyBody_buyOrders_no_confirm cfg benv s h]
  · intro h
    by_cases hm : m ∈ s2.sellOrders
    · have hst := (sellLoop_no_confirm_state cfg senv m h cfg.maxSellRetries 0 s2).1
      simp only [Bot.sellOrder, if_pos hm, hst]
      simp [List.mem_filter]
    · have hst := (sellLoop_no_confirm_state cfg senv m h cfg.maxSellRetries 0
        { s2 with sellOrders := m :: s2.sellOrders }).1
      simp only [Bot.sellOrder, if_neg hm, hst]
      simp [List.filter_cons, List.mem_filter]

/-- Buy environment for the C8 witness: every submission attempt reports
non-confirmed. -/
def envC8buy : BuyEnv := { envC7w with exec := fun _ => some false }

/-- Sell environment for the C8 witness: every submission attempt reports
non-confirmed. -/
def envC8sell : SellEnv :=
  { account := some { mint := "MintA", amount := 5 }, poolOk := true,
    marketOk := true, currentValueRaw := some 20,
    blockhash := fun i => 200 + i, exec := fun _ => some false, now := 999000 }

/-- State for the C8 witness: an open position for MintA, no in-flight flag. -/
def stateC8 : BotState :=
  { mutexLocked := false, processingMint := [],
    buyOrders := [("MintA", mkBuyOrder cfgBase envC7w "MintA" none)],
    sellOrders := [] }

/-- Witness for C8 at the concrete failing-submission environments. -/
theorem C8_witness :
    (Bot.buy cfgBase envC8buy stateC8).1.buyOrders = stateC8.buyOrders ∧
    (Bot.sellOrder cfgBase envC8sell "MintA" stateC8).1.buyOrders = stateC8.buyOrders ∧
    "MintA" ∉ (Bot.sellOrder cfgBase envC8sell "MintA" stateC8).1.sellOrders := by
  have h := C8_partial_failure_atomicity cfgBase envC8buy envC8sell "MintA" stateC8 stateC8
  have hb : ∀ i, envC8buy.exec i ≠ some true := fun i => by simp [envC8buy]
  have hs : ∀ i, envC8sell.exec i ≠ some true := fun i => by simp [envC8sell]
  exact ⟨h.1 hb, (h.2 hs).1, (h.2 hs).2.2⟩

/-- Buy environment for the C9 failing run: the first submission attempt is
confirmed. -/
def envC9 : BuyEnv := { envC7w with exec := fun _ => some true }

/-- C9 (failing run): with autoBuy on and the first submission confirmed,
the workflow emits the confirmed-buy notification and records the position,
yet still emits the buy-failed notification after the loop — the
buyConfirmed flag declared at src/bot.ts line 337 is never set to true, so
the post-loop check at line 437 fires even after a confirmed buy. -/
theorem C9_confirmed_buy_still_emits_failed_alert :
    Ev.tg TgKind.confirmedBuy ∈ (Bot.buy cfgBase envC9 stateEmpty).2 ∧
    Ev.tg TgKind.buyFailed ∈ (Bot.buy cfgBase envC9 stateEmpty).2 ∧
    (List.lookup "MintA" (Bot.buy cfgBase envC9 stateEmpty).1.buyOrders).isSome = true := by
  decide

/-- C10: in monitor-only mode (autoBuy = false), a buy workflow that
resolves its pool, passes the snipe-list and mutex gates and passes the
filter gate returns before the simulation and submission phases: it submits
no transaction, leaves buyOrders unchanged, and its only notification is
the potential-acquisition message. -/
theorem C10_monitor_mode_is_effect_free (cfg : BotConfig) (env : BuyEnv)
    (s : BotState) (m : String)
    (hauto : cfg.autoBuy = false)
    (hfetch : env.fetchInfoBaseMint = some (some m))
    (hmarket : env.marketOk = true)
    (hsnipe : cfg.useSnipeList = true → env.inSnipeList = true)
    (hmutex : cfg.oneTokenAtATime = true →
      s.mutexLocked = false ∧ List.lookup m s.buyOrders = none)
    (hfilter : env.filterOk = true) :
    (Bot.buy cfg env s).1.buyOrders = s.buyOrders ∧
    (∀ i bh c, Ev.submit i bh c ∉ (Bot.buy cfg env s).2) ∧
    (Bot.buy cfg env s).2.filter
        (fun e => match e with | Ev.tg _ => true | _ => false) =
      [Ev.tg TgKind.potentialBuy] := by
  cases hott : cfg.oneTokenAtATime with
  | false =>
    have hbody : buyBody cfg env s = (s, [Ev.tg TgKind.potentialBuy], some m) := by
      rcases hsn : cfg.useSnipeList with _ | _
      · simp [buyBody, buyAfterGate, buyLocked, hfetch, hauto, hmarket, hfilter, hott, hsn]
      · have hin := hsnipe hsn
        simp [buyBody, buyAfterGate, buyLocked, hfetch, hauto, hmarket, hfilter, hott, hsn, hin]
    have hfin : buyFinally cfg (some m) s =
        ({ s with processingMint := s.processingMint.erase m }, []) := by
      simp [buyFinally, hott]
    simp only [Bot.buy, hbody, hfin]
    refine ⟨by trivial, ?_, by trivial⟩
    intro i bh c
    simp
  | true =>
    obtain ⟨hml, hlk⟩ := hmutex hott
    have hbody : buyBody cfg env s =
        ({ s with
            mutexLocked := true,
            processingMint := (if m ∈ s.processingMint then s.processingMint
              else m :: s.processingMint) },
          [Ev.mutexAcquire, Ev.tg TgKind.potentialBuy], some m) := by
      rcases hsn : cfg.useSnipeList with _ | _
      · simp [buyBody, buyAfterGate, buyLocked, hfetch, hauto, hmarket, hfilter, hott, hsn, hml, hlk]
      · have hin := hsnipe hsn
        simp [buyBody, buyAfterGate, buyLocked, hfetch, hauto, hmarket, hfilter, hott, hsn, hin, hml, hlk]
    have hmem : m ∈ (if m ∈ s.processingMint then s.processingMint
        else m :: s.processingMint) := by
      by_cases hms : m ∈ s.processingMint <;> simp [hms]
    have hfin : buyFinally cfg (some m)
        { s with
          mutexLocked := true,
          processingMint := (if m ∈ s.processingMint then s.processingMint
            else m :: s.processingMint) } =
        ({ s with
            mutexLocked := false,
            processingMint := (if m ∈ s.processingMint then s.processingMint
              else m :: s.processingMint).erase m },
          [Ev.mutexRelease]) := by
      simp [buyFinally, hott, hmem]
    simp only [Bot.buy, hbody, hfin]
    refine ⟨by trivial, ?_, by trivial⟩
    intro i bh c
    simp

/-- Configuration for the C10 witness: monitor mode with the mutex gate
enabled. -/
def cfgC10 : BotConfig := { cfgBase with autoBuy := false, oneTokenAtATime := true }

/-- Witness for C10 at a concrete monitor-mode run. -/
theorem C10_witness :
    (Bot.buy cfgC10 envC7w stateEmpty).1.buyOrders = stateEmpty.buyOrders ∧
    (∀ i bh c, Ev.submit i bh c ∉ (Bot.buy cfgC10 envC7w stateEmpty).2) ∧
    (Bot.buy cfgC10 envC7w stateEmpty).2.filter
        (fun e => match e with | Ev.tg _ => true | _ => false) =
      [Ev.tg TgKind.potentialBuy] :=
  C10_monitor_mode_is_effect_free cfgC10 envC7w stateEmpty "MintA" rfl rfl rfl
    (fun h => absurd h (by decide)) (fun _ => ⟨rfl, rfl⟩) rfl

/-- Sell environment of the C4 failing run: a non-quote account for MintA
with a positive balance. -/
def envC4 : SellEnv :=
  { account := some { mint := "MintA", amount := 5 }, poolOk := true,
    marketOk := true, currentValueRaw := some 20,
    blockhash := fun i => 300 + i, exec := fun _ => some true, now := 6000 }

/-- The shared state the C4 failing run starts from: another sell workflow
for MintA is in flight and owns the in-flight flag (it set
sellOrders[MintA] at src/bot.ts line 500 and is suspended at its
autoSellDelay sleep or pool fetch). -/
def stateC4 : BotState :=
  { mutexLocked := false, processingMint := [],
    buyOrders := [("MintA", mkBuyOrder cfgBase envC7w "MintA" none)],
    sellOrders := ["MintA"] }

/-- C4 (failing run): a sell for MintA requested while the in-flight flag
is already set is skipped (no disposal events, position untouched), but its
finally block (src/bot.ts lines 547-550) deletes the flag it does not own —
afterwards the flag is clear while the owning workflow is still running, so
a third sell for the same mint passes the guard and runs concurrently with
the first. -/
theorem C4_skipped_sell_clears_foreign_flag :
    "MintA" ∈ stateC4.sellOrders ∧
    Bot.sell cfgBase envC4 stateC4 = ({ stateC4 with sellOrders := [] }, []) ∧
    "MintA" ∉ (Bot.sell cfgBase envC4 stateC4).1.sellOrders := by
  decide

end Warp
